import Mathlib

/-!
# Verification of the PassKey wordlist-generator core (src/passkey.py)

Tokens are modeled as `List Char`.  Python `set`s are modeled as
deduplicated lists (`List.dedup`), which is membership-faithful; the set iteration
order of CPython is implementation-defined, so order-sensitive prefixes
such as `list(passwords)[:5000]` are modeled by one concrete order (the
insertion order of the embedding).  Character-class operations model the
ASCII behaviour of the Python `str` methods (`lower`, `upper`, `isupper`,
`islower`, `isdigit`); the profile fields of the program are ASCII.
-/

/-- ASCII lower-casing of one character, modeling Python `str.lower` on the
ASCII range: a capital letter (code 65-90) is shifted by 32, every other
character is unchanged. -/
def pyToLower (c : Char) : Char :=
  if 65 ≤ c.toNat ∧ c.toNat ≤ 90 then Char.ofNat (c.toNat + 32) else c

/-- ASCII upper-casing of one character, modeling Python `str.upper` on the
ASCII range: a small letter (code 97-122) is shifted by -32, every other
character is unchanged. -/
def pyToUpper (c : Char) : Char :=
  if 97 ≤ c.toNat ∧ c.toNat ≤ 122 then Char.ofNat (c.toNat - 32) else c

/-- Python `str.lower` over a whole token. -/
def pyLower (w : List Char) : List Char := w.map pyToLower

/-- Python `str.upper` over a whole token. -/
def pyUpper (w : List Char) : List Char := w.map pyToUpper

/-- Python `str.capitalize`: first character upper-cased, all remaining
characters lower-cased. -/
def pyCapitalize (w : List Char) : List Char :=
  match w with
  | [] => []
  | c :: cs => pyToUpper c :: cs.map pyToLower

/-- The default LEET substitution table built by `read_config`
(src/passkey.py lines 71-74), in its Python dict insertion order. -/
def defaultLeet : List (Char × Char) :=
  [('a', '4'), ('e', '3'), ('i', '1'), ('o', '0'),
   ('s', '5'), ('t', '7'), ('g', '9'), ('b', '8')]

/-- One character under one `str.replace(letter, leet_char)` step of
`make_leet`: every occurrence of `p.1` becomes `p.2` (the table maps a
single character to a single character). -/
def leetCharStep (a : Char) (p : Char × Char) : Char :=
  if a = p.1 then p.2 else a

/-- `PassKey.make_leet` (src/passkey.py lines 368-373): lower-case the word,
then apply each `(letter, replacement)` pair of the leet table sequentially
over the evolving string. -/
def make_leet (leet : List (Char × Char)) (w : List Char) : List Char :=
  leet.foldl (fun acc p => acc.map (fun c => leetCharStep c p)) (pyLower w)

/-- `PassKey.generate_date_variations` (src/passkey.py lines 433-453):
guard `not date or len(date) != 8`, slice `dd`/`mm`/`yyyy`/`yy`/`yyy`,
enumerate the 17 variants, deduplicate (`list(set(...))` modeled as
`List.dedup`). -/
def generate_date_variations (date : List Char) : List (List Char) :=
  if date = [] ∨ date.length ≠ 8 then []
  else
    let dd := date.take 2
    let mm := (date.drop 2).take 2
    let yyyy := date.drop 4
    let yy := yyyy.drop 2
    let yyy := yyyy.drop 1
    ([dd, mm, yyyy, yy, yyy,
      dd ++ mm, mm ++ dd,
      dd ++ mm ++ yyyy, mm ++ dd ++ yyyy,
      dd ++ mm ++ yy, mm ++ dd ++ yy,
      yyyy ++ mm ++ dd, yyyy ++ dd ++ mm,
      yy ++ mm ++ dd, yy ++ dd ++ mm,
      dd.drop 1, mm.drop 1]).dedup

/-- Modelled from the spec, section 4.2: the seventeen enumerated variants
`dd, mm, yyyy, yy, yyy, dd+mm, mm+dd, dd+mm+yyyy, mm+dd+yyyy, dd+mm+yy,
mm+dd+yy, yyyy+mm+dd, yyyy+dd+mm, yy+mm+dd, yy+dd+mm, dd[1], mm[1]` with
`dd, mm, yyyy` the 2/2/4-digit substrings, `yy = yyyy[2:]`, `yyy = yyyy[1:]`. -/
def specDateVariants (date : List Char) : List (List Char) :=
  let dd := date.take 2
  let mm := (date.drop 2).take 2
  let yyyy := date.drop 4
  let yy := yyyy.drop 2
  let yyy := yyyy.drop 1
  [dd, mm, yyyy, yy, yyy,
   dd ++ mm, mm ++ dd,
   dd ++ mm ++ yyyy, mm ++ dd ++ yyyy,
   dd ++ mm ++ yy, mm ++ dd ++ yy,
   yyyy ++ mm ++ dd, yyyy ++ dd ++ mm,
   yy ++ mm ++ dd, yy ++ dd ++ mm,
   dd.drop 1, mm.drop 1]

/-- Claim C1: for every 8-character date string the Date Variation Expander
returns exactly the deduplicated set of the 17 enumerated variants, and on
"15031990" it returns exactly the seventeen listed strings and nothing else. -/
theorem claim_C1_date_variations :
    (∀ date : List Char, date.length = 8 →
      ∀ s, s ∈ generate_date_variations date ↔ s ∈ specDateVariants date) ∧
    generate_date_variations ("15031990".data) =
      ["15".data, "03".data, "1990".data, "90".data, "990".data,
       "1503".data, "0315".data, "15031990".data, "03151990".data,
       "150390".data, "031590".data, "19900315".data, "19901503".data,
       "900315".data, "901503".data, "5".data, "3".data] := by
  constructor
  · intro date h s
    have hne : ¬(date = [] ∨ date.length ≠ 8) := by
      rintro (rfl | hlen)
      · simp at h
      · exact hlen h
    rw [generate_date_variations, if_neg hne, List.mem_dedup]
    rfl
  · decide

/-- Witness for claim C1 at the concrete date "15031990". -/
theorem claim_C1_witness :
    "90".data ∈ generate_date_variations ("15031990".data) :=
  (claim_C1_date_variations.1 ("15031990".data) (by decide) ("90".data)).mpr
    (by decide)

/-- Claim C2 counterexample: "abcdefgh" has length 8 but consists of
non-digit characters, yet the expander does not return the empty set — the
code checks only the length, never `isdigit`. -/
theorem claim_C2_counterexample :
    generate_date_variations ("abcdefgh".data) ≠ [] := by decide

/-- Claim C2 amended: the Date Variation Expander returns the empty set
exactly for the inputs whose length differs from 8 (the absent/empty input
included); inputs of length 8 are expanded whether or not they are digits. -/
theorem claim_C2_amended_thm :
    ∀ date : List Char, generate_date_variations date = [] ↔ date.length ≠ 8 := by
  intro date
  constructor
  · intro h hlen
    have hne : ¬(date = [] ∨ date.length ≠ 8) := by
      rintro (rfl | hl)
      · simp at hlen
      · exact hl hlen
    rw [generate_date_variations, if_neg hne] at h
    have := (List.dedup_eq_nil _).mp h
    simp at this
  · intro h
    rw [generate_date_variations, if_pos (Or.inr h)]

/-- Witness for claim C2 (amended) at the concrete too-short input "123". -/
theorem claim_C2_witness : generate_date_variations ("123".data) = [] :=
  (claim_C2_amended_thm ("123".data)).mpr (by decide)

/-- Claim C3 counterexample: with the default table, `make_leet` does not map
"password" to "p4ssw0rd" — `str.replace` substitutes every occurrence, so the
two letters s also become 5. -/
theorem claim_C3_counterexample :
    make_leet defaultLeet ("password".data) ≠ "p4ssw0rd".data := by decide

/-- Claim C3 amended: with the default leet map the Leet Transformer maps
"password" to exactly "p455w0rd" (every occurrence of each mapped letter is
substituted, including both letters s). -/
theorem claim_C3_amended_thm :
    make_leet defaultLeet ("password".data) = "p455w0rd".data := by decide

/-- `Profile` (src/passkey.py lines 147-164): string fields as char lists,
the empty list standing for an absent field, plus the ordered keyword list. -/
structure Profile where
  name : List Char := []
  surname : List Char := []
  nickname : List Char := []
  birthdate : List Char := []
  partner_name : List Char := []
  partner_nickname : List Char := []
  partner_birthdate : List Char := []
  child_name : List Char := []
  child_nickname : List Char := []
  child_birthdate : List Char := []
  pet_name : List Char := []
  company : List Char := []
  keywords : List (List Char) := []
  email : List Char := []
  phone : List Char := []

/-- `PasswordConfig` (src/passkey.py lines 192-206), together with the
global `CONFIG["LEET"]` table that `make_leet` reads; the numeric suffix
range endpoints are modeled as naturals (the shipped configuration uses
0 and 99). -/
structure PasswordConfig where
  min_length : Nat
  max_length : Nat
  use_leet : Bool
  use_special_chars : Bool
  use_numbers : Bool
  use_modern_terms : Bool
  year_range : List (List Char)
  special_chars : List Char
  modern_terms : List (List Char)
  num_from : Nat
  num_to : Nat
  leet_map : List (Char × Char)

/-- Decimal rendering of a natural, modeling Python `str(n)`. -/
def natStr (n : Nat) : List Char := (Nat.repr n).data

/-- The configuration built from the compiled-in defaults of `read_config`
and `PasswordConfig.__init__` (src/passkey.py lines 52-75 and 192-206). -/
def defaultConfig : PasswordConfig where
  min_length := 6
  max_length := 20
  use_leet := true
  use_special_chars := true
  use_numbers := true
  use_modern_terms := true
  year_range := (List.range' 1950 76).map natStr
  special_chars := ['!', '@', '#', '$', '%', '&', '*', '_', '-', '+', '=']
  modern_terms :=
    ["ai", "crypto", "bitcoin", "nft", "meta", "chatgpt", "web3",
     "defi", "blockchain", "covid", "vaccine", "zoom", "tiktok",
     "2025", "2024", "2023", "gaming", "streaming", "cloud"].map String.data
  num_from := 0
  num_to := 99
  leet_map := defaultLeet

/-- The word list accumulated by `PassKey.generate_base_words`
(src/passkey.py lines 375-425) before the reversal pass: per-field variants,
name+surname combinations, pet/company, keywords and email-local-part
variants, in source order.  Python truthiness of a string is modeled as
non-emptiness. -/
def base_words_pool (p : Profile) : List (List Char) :=
  (if p.name ≠ [] then [p.name, pyCapitalize p.name, pyUpper p.name] else []) ++
  (if p.surname ≠ [] then
      [p.surname, pyCapitalize p.surname, pyUpper p.surname] else []) ++
  (if p.nickname ≠ [] then [p.nickname, pyCapitalize p.nickname] else []) ++
  (if p.name ≠ [] ∧ p.surname ≠ [] then
      [p.name ++ p.surname, p.surname ++ p.name,
       pyCapitalize p.name ++ pyCapitalize p.surname,
       p.name.take 1 ++ p.surname] else []) ++
  (if p.partner_name ≠ [] then
      [p.partner_name, pyCapitalize p.partner_name] ++
      (if p.partner_nickname ≠ [] then
          [p.partner_nickname, pyCapitalize p.partner_nickname] else [])
    else []) ++
  (if p.child_name ≠ [] then
      [p.child_name, pyCapitalize p.child_name] ++
      (if p.child_nickname ≠ [] then
          [p.child_nickname, pyCapitalize p.child_nickname] else [])
    else []) ++
  (if p.pet_name ≠ [] then [p.pet_name, pyCapitalize p.pet_name] else []) ++
  (if p.company ≠ [] then
      [p.company, pyCapitalize p.company,
       p.company.filter (fun c => c ≠ ' ')] else []) ++
  (p.keywords.flatMap (fun kw => [kw, pyCapitalize kw, pyUpper kw])) ++
  (if '@' ∈ p.email then
      [p.email.takeWhile (fun c => c ≠ '@'),
       pyCapitalize (p.email.takeWhile (fun c => c ≠ '@')),
       (p.email.takeWhile (fun c => c ≠ '@')).filter (fun c => c ≠ '.'),
       (p.email.takeWhile (fun c => c ≠ '@')).filter (fun c => c ≠ '_')]
    else [])

/-- `PassKey.generate_base_words`: the pool, then the reversal pass (each
pool word of length > 3 contributes its reverse), then `list(set(words))`
modeled as `List.dedup`. -/
def generate_base_words (p : Profile) : List (List Char) :=
  (base_words_pool p ++
    ((base_words_pool p).filter (fun w => 3 < w.length)).map List.reverse).dedup

/-- The final length filter shared verbatim by `generate_combinations`
(line 555), `improve_wordlist` (line 758) and `merge_wordlists` (line 789):
keep exactly the tokens with `min_length ≤ len ≤ max_length`. -/
def lengthFilter (cfg : PasswordConfig) (l : List (List Char)) : List (List Char) :=
  l.filter (fun w =>
    decide (cfg.min_length ≤ w.length) && decide (w.length ≤ cfg.max_length))

/-- The accumulator built by `PassKey.generate_combinations`
(src/passkey.py lines 455-551) before the final length filter: base words,
word/date and word/year products over the first three separators, capped
number, special-character and modern-term products, email-provider and
phone-digit patterns, and the leet pass over a 5000-token sample of the
set (the sample prefix models the implementation-defined CPython set
order). -/
def generate_combinations_pool (cfg : PasswordConfig) (p : Profile) :
    List (List Char) :=
  let base_words := generate_base_words p
  let dates := ((generate_date_variations p.birthdate ++
                 generate_date_variations p.partner_birthdate) ++
                generate_date_variations p.child_birthdate).dedup
  let years := cfg.year_range.drop (cfg.year_range.length - 10)
  let separators : List (List Char) := [[], ['_'], ['-'], ['.'], ['@'], ['!']]
  let acc := base_words
  let acc := acc ++ base_words.flatMap (fun word =>
    dates.flatMap (fun date =>
      (separators.take 3).flatMap (fun sep =>
        [word ++ sep ++ date, date ++ sep ++ word])))
  let acc := acc ++ base_words.flatMap (fun word =>
    years.flatMap (fun year =>
      (separators.take 3).flatMap (fun sep =>
        [word ++ sep ++ year, year ++ sep ++ word])))
  let acc := acc ++ (if cfg.use_numbers then
    (base_words.take 50).flatMap (fun word =>
      ((List.range' cfg.num_from ((min cfg.num_to 100 - cfg.num_from + 10) / 11)
          11).map natStr).flatMap
        (fun num => [word ++ num, num ++ word])) else [])
  let acc := acc ++ (if cfg.use_special_chars then
    (base_words.take 50).flatMap (fun word =>
      (cfg.special_chars.take 5).flatMap (fun ch =>
        [word ++ [ch], ch :: word] ++
        (years.drop (years.length - 3)).map (fun year => word ++ ch :: year)))
    else [])
  let acc := acc ++ (if cfg.use_modern_terms then
    (base_words.take 20).flatMap (fun word =>
      (cfg.modern_terms.take 15).flatMap (fun term =>
        [word ++ term, term ++ word, word ++ pyCapitalize term])) else [])
  let acc := acc ++ (if '@' ∈ p.email then
    (["gmail.com", "yahoo.com", "hotmail.com", "outlook.com"].map
        String.data).map
      (fun prov => p.email.takeWhile (fun c => c ≠ '@') ++ '@' :: prov)
    else [])
  let clean_phone := p.phone.filter Char.isDigit
  let acc := acc ++ (if 4 ≤ clean_phone.length then
    [clean_phone.drop (clean_phone.length - 4),
     clean_phone.drop (clean_phone.length - 6),
     clean_phone.drop (clean_phone.length - 8)] else [])
  let acc := acc.dedup
  acc ++ (if cfg.use_leet then (acc.take 5000).map (make_leet cfg.leet_map)
          else [])

/-- `PassKey.generate_combinations`: the pool as a set, then the final
length filter of line 555. -/
def generate_combinations (cfg : PasswordConfig) (p : Profile) :
    List (List Char) :=
  lengthFilter cfg (generate_combinations_pool cfg p).dedup

/-- The enhancement pool of `PassKey.improve_wordlist` (src/passkey.py
lines 719-756): the input tokens themselves, case variants of the first
1000, leet of the first 500, year suffixes 2020-2025 on the first 500,
the first 3 special characters on the first 300, and the fixed number
suffixes on the first 300.  File loading and the over-threshold
confirmation prompt are interactive I/O outside the model. -/
def improve_wordlist_pool (cfg : PasswordConfig) (words : List (List Char)) :
    List (List Char) :=
  let enhanced := words.dedup
  let enhanced := enhanced ++ (words.take 1000).flatMap
    (fun w => [pyCapitalize w, pyUpper w, pyLower w])
  let enhanced := enhanced ++
    (if cfg.use_leet then (words.take 500).map (make_leet cfg.leet_map) else [])
  let enhanced := enhanced ++ (words.take 500).flatMap (fun w =>
    ((List.range' 2020 6).map natStr).flatMap (fun y => [w ++ y, y ++ w]))
  let enhanced := enhanced ++ (if cfg.use_special_chars then
    (words.take 300).flatMap (fun w =>
      (cfg.special_chars.take 3).map (fun c => w ++ [c])) else [])
  enhanced ++ (words.take 300).flatMap (fun w =>
    (["123", "1", "12", "01", "007"].map String.data).map (fun num => w ++ num))

/-- `PassKey.improve_wordlist`: the enhancement pool as a set, then the
final length filter of line 758. -/
def improve_wordlist (cfg : PasswordConfig) (words : List (List Char)) :
    List (List Char) :=
  lengthFilter cfg (improve_wordlist_pool cfg words).dedup

/-- `PassKey.merge_wordlists` core (src/passkey.py lines 768-793): set
union across the supplied token collections followed by the length filter
of line 789.  File reading, skip-with-warning and the export are I/O
outside the model; each element of `files` is the token list of one
readable file. -/
def merge_wordlists (cfg : PasswordConfig) (files : List (List (List Char))) :
    List (List Char) :=
  lengthFilter cfg ((files.foldl (fun acc ws => acc ++ ws) []).dedup)

lemma mem_lengthFilter {cfg : PasswordConfig} {l : List (List Char)}
    {w : List Char} (h : w ∈ lengthFilter cfg l) :
    cfg.min_length ≤ w.length ∧ w.length ≤ cfg.max_length := by
  have h2 := (List.mem_filter.mp h).2
  simpa using h2

/-- Claim C4: for every profile and configuration, every token returned by
the Combination Engine satisfies `min_length ≤ length ≤ max_length`, and the
same bound holds for the outputs of `improve_wordlist` and
`merge_wordlists`. -/
theorem claim_C4_length_bounds
    (cfg : PasswordConfig) (p : Profile) (ts : List (List Char))
    (fs : List (List (List Char))) (w : List Char)
    (h : w ∈ generate_combinations cfg p ∨ w ∈ improve_wordlist cfg ts ∨
         w ∈ merge_wordlists cfg fs) :
    cfg.min_length ≤ w.length ∧ w.length ≤ cfg.max_length := by
  rcases h with h | h | h
  · exact mem_lengthFilter h
  · exact mem_lengthFilter h
  · exact mem_lengthFilter h

/-- Witness for claim C4: the token "johnny" survives a concrete merge and
its length lies within the default bounds. -/
theorem claim_C4_witness :
    defaultConfig.min_length ≤ ("johnny".data).length ∧
      ("johnny".data).length ≤ defaultConfig.max_length :=
  claim_C4_length_bounds defaultConfig {} [] [["johnny".data]] ("johnny".data)
    (Or.inr (Or.inr (by decide)))

/-- Claim C7: `improve_wordlist` is monotone — every input token whose
length satisfies the bounds is present in the output. -/
theorem claim_C7_improve_monotone
    (cfg : PasswordConfig) (words : List (List Char)) (w : List Char)
    (hmem : w ∈ words) (hlo : cfg.min_length ≤ w.length)
    (hhi : w.length ≤ cfg.max_length) :
    w ∈ improve_wordlist cfg words := by
  have hpool : w ∈ improve_wordlist_pool cfg words := by
    simp only [improve_wordlist_pool, List.mem_append, List.mem_dedup]
    left; left; left; left; left
    exact hmem
  rw [improve_wordlist, lengthFilter, List.mem_filter]
  exact ⟨List.mem_dedup.mpr hpool, by simp [hlo, hhi]⟩

/-- Witness for claim C7: "johnny" is kept by a concrete improvement run. -/
theorem claim_C7_witness :
    "johnny".data ∈ improve_wordlist defaultConfig ["johnny".data] :=
  claim_C7_improve_monotone defaultConfig ["johnny".data] ("johnny".data)
    (by decide) (by decide) (by decide)

/-- Claim C8: merging is plain set union followed by the length filter —
on two collections it is commutative as a set, and its result never
contains duplicates. -/
theorem claim_C8_merge_union (cfg : PasswordConfig) (A B : List (List Char))
    (fs : List (List (List Char))) :
    (merge_wordlists cfg [A, B]).toFinset =
      (merge_wordlists cfg [B, A]).toFinset ∧
    (merge_wordlists cfg fs).Nodup := by
  constructor
  · ext x
    simp only [merge_wordlists, lengthFilter, List.foldl, List.nil_append,
      List.mem_toFinset, List.mem_filter, List.mem_dedup, List.mem_append]
    tauto
  · exact (List.nodup_dedup _).filter _

/-- A profile whose only present field is the company "acme", used to test
the company variants of the Base-Word Generator. -/
def companyProfile : Profile := { company := "acme".data }

/-- Claim C9 counterexample: for the profile whose company is "acme", the
result of the Base-Word Generator does not contain the all-uppercase company
form "ACME" — the code adds only the as-is, capitalized and space-stripped
company variants. -/
theorem claim_C9_counterexample :
    pyUpper ("acme".data) ∉ generate_base_words companyProfile := by decide

/-- Claim C9 amended: for every profile with a non-empty company field, the
result of the Base-Word Generator contains the company as-is, its capitalized
form, and its space-stripped variant; the all-uppercase form is granted to
name, surname and keywords, not to company. -/
theorem claim_C9_amended_thm (p : Profile) (h : p.company ≠ []) :
    p.company ∈ generate_base_words p ∧
    pyCapitalize p.company ∈ generate_base_words p ∧
    p.company.filter (fun c => c ≠ ' ') ∈ generate_base_words p := by
  have hpool : ∀ w ∈ base_words_pool p, w ∈ generate_base_words p := by
    intro w hw
    exact List.mem_dedup.mpr (List.mem_append_left _ hw)
  refine ⟨hpool _ ?_, hpool _ ?_, hpool _ ?_⟩ <;>
    simp [base_words_pool, h]

/-- Witness for claim C9 (amended) at the concrete company "acme". -/
theorem claim_C9_witness :
    companyProfile.company ∈ generate_base_words companyProfile ∧
    pyCapitalize companyProfile.company ∈ generate_base_words companyProfile ∧
    companyProfile.company.filter (fun c => c ≠ ' ') ∈
      generate_base_words companyProfile :=
  claim_C9_amended_thm companyProfile (by decide)

/-- The three strength classes returned (as strings) by
`calculate_password_strength`. -/
inductive Strength where
  | weak
  | medium
  | strong
deriving DecidableEq, Repr

/-- The significand of the IEEE-754 double nearest to 0.7: the source
computes `len(password) * 0.7` in double precision, and the double literal
0.7 is exactly `3152519739159347 / 2 ^ 52`. -/
def double07Num : Nat := 3152519739159347

/-- The number of excess significand bits of `v` beyond the 53 retained by
an IEEE-754 double (fuel-bounded halving; a fuel of 64 suffices for every
product of a length below 2^53 with the 0.7 significand). -/
def excessBitsAux : Nat → Nat → Nat
  | 0, _ => 0
  | fuel + 1, v => if 2 ^ 53 ≤ v then excessBitsAux fuel (v / 2) + 1 else 0

/-- Round `v` to its top 53 bits by dropping `s` low bits with the IEEE-754
round-to-nearest, ties-to-even rule; the rounded value is the returned
number times `2 ^ s`. -/
def doubleRound (v s : Nat) : Nat :=
  if s = 0 then v
  else
    let q := v / 2 ^ s
    let r := v % 2 ^ s
    let h := 2 ^ (s - 1)
    if h < r then q + 1
    else if r < h then q
    else if q % 2 = 0 then q else q + 1

/-- The double-precision test `len(set(password)) > len(password) * 0.7` of
src/passkey.py line 582, evaluated exactly: the exact product
`L * double07Num / 2 ^ 52` is rounded to 53 significant bits (round to
nearest, ties to even) and the comparison is carried out in integers
scaled by `2 ^ 52`.  This reproduces the IEEE-754 double multiplication
for every length `L` below 2^53, where the int-to-double conversion of
`len(password)` is itself exact. -/
def pyFloatUniqGt (d L : Nat) : Bool :=
  let v := L * double07Num
  let s := excessBitsAux 64 v
  decide (doubleRound v s * 2 ^ s < d * 2 ^ 52)

/-- `PassKey.calculate_password_strength` (src/passkey.py lines 559-590):
the sequential `score += ...` point accumulation and the two thresholds.
The uniqueness test `len(set(password)) > len(password) * 0.7` is the
exact evaluation `pyFloatUniqGt` of the double-precision comparison of the
source. -/
def calculate_password_strength (cfg : PasswordConfig) (password : List Char) :
    Strength :=
  let score := 0
  let score := score + (if 8 ≤ password.length then 1 else 0)
  let score := score + (if 12 ≤ password.length then 1 else 0)
  let score := score + (if 16 ≤ password.length then 1 else 0)
  let score := score + (if password.any Char.isUpper then 1 else 0)
  let score := score + (if password.any Char.isLower then 1 else 0)
  let score := score + (if password.any Char.isDigit then 1 else 0)
  let score := score +
    (if password.any (fun c => c ∈ cfg.special_chars) then 2 else 0)
  let score := score +
    (if pyFloatUniqGt password.dedup.length password.length then 1 else 0)
  if score ≤ 3 then Strength.weak
  else if score ≤ 6 then Strength.medium
  else Strength.strong

/-- Modelled from the spec, section 4.5: the additive point total — +1
length≥8, +1 length≥12, +1 length≥16, +1 has-uppercase, +1 has-lowercase,
+1 has-digit, +2 has-any-of-special_chars, +1 if the distinct-character
count exceeds 0.7×length. -/
def specStrengthScore (cfg : PasswordConfig) (token : List Char) : Nat :=
  (if token.length ≥ 8 then 1 else 0) +
  (if token.length ≥ 12 then 1 else 0) +
  (if token.length ≥ 16 then 1 else 0) +
  (if token.any Char.isUpper then 1 else 0) +
  (if token.any Char.isLower then 1 else 0) +
  (if token.any Char.isDigit then 1 else 0) +
  (if token.any (fun c => c ∈ cfg.special_chars) then 2 else 0) +
  (if 10 * token.dedup.length > 7 * token.length then 1 else 0)

/-- Modelled from the spec, section 4.5: total ≤3 → weak, ≤6 → medium,
else strong. -/
def specStrengthClass (cfg : PasswordConfig) (token : List Char) : Strength :=
  if specStrengthScore cfg token ≤ 3 then Strength.weak
  else if specStrengthScore cfg token ≤ 6 then Strength.medium
  else Strength.strong

/-- A token of length 90 with exactly 63 distinct characters: the 62
alphanumerics, a question mark, and 27 repeats of the letter a. -/
def longToken : List Char :=
  ("abcdefghijklmnopqrstuvwxyzABCDEFGHIJKLMNOPQRSTUVWXYZ0123456789?aaaaaaaaaaaaaaaaaaaaaaaaaaa").data

set_option maxRecDepth 8192 in
/-- Claim C5 counterexample: on the length-90 token with exactly 63
distinct characters the scorer and the exact additive rubric of the spec
disagree — Python computes `90 * 0.7 = 62.99999999999999`, so the code
awards the uniqueness point (63 > 62.99...) and returns strong (7 points),
while the exact rubric withholds it (63 does not exceed 63) and returns
medium (6 points). -/
theorem claim_C5_counterexample :
    calculate_password_strength defaultConfig longToken = Strength.strong ∧
    specStrengthClass defaultConfig longToken = Strength.medium := by
  constructor
  · decide
  · decide

lemma pyFloatUniqGt_eq_exact :
    ∀ L, L < 90 → ∀ d, d ≤ L →
      pyFloatUniqGt d L = decide (10 * d > 7 * L) := by
  decide

/-- Claim C5 amended: the Strength Scorer is the additive point function of
the spec with the uniqueness point awarded by the double-precision
comparison `len(set(password)) > len(password) * 0.7`; on every token
shorter than 90 characters it coincides with the exact-arithmetic rubric
of the spec, and on "aaaa1111" with the default special-character set it
returns the class the rubric computes, namely weak (score 3). -/
theorem claim_C5_amended_thm :
    (∀ (cfg : PasswordConfig) (pw : List Char), pw.length < 90 →
      calculate_password_strength cfg pw = specStrengthClass cfg pw) ∧
    calculate_password_strength defaultConfig ("aaaa1111".data) =
      Strength.weak := by
  constructor
  · intro cfg pw hlen
    have hd : pw.dedup.length ≤ pw.length := (List.dedup_sublist pw).length_le
    have hkey := pyFloatUniqGt_eq_exact pw.length hlen pw.dedup.length hd
    simp only [calculate_password_strength, specStrengthClass,
      specStrengthScore, hkey, decide_eq_true_eq, ge_iff_le, Nat.zero_add]
  · decide

/-- Witness for claim C5 (amended): the sub-90 agreement applied at the
concrete token "aaaa1111". -/
theorem claim_C5_witness :
    calculate_password_strength defaultConfig ("aaaa1111".data) =
      specStrengthClass defaultConfig ("aaaa1111".data) :=
  claim_C5_amended_thm.1 defaultConfig ("aaaa1111".data) (by decide)

/-- The statistics record assembled by `generate_statistics` for a
non-empty token set (src/passkey.py lines 592-629).  Averages and
percentages are kept as exact rationals (the two-decimal float rounding of
the source is display-level); the generation timestamp is ambient-clock
I/O outside the model. -/
structure StatsRecord where
  total_passwords : Nat
  average_length : ℚ
  min_length : Nat
  max_length : Nat
  weak_count : Nat
  medium_count : Nat
  strong_count : Nat
  weak_percentage : ℚ
  medium_percentage : ℚ
  strong_percentage : ℚ
  upper_count : Nat
  lower_count : Nat
  digit_count : Nat
  special_count : Nat

/-- `PassKey.generate_statistics`: the guard `if not passwords: return {}`
returns the empty dict, modeled as `none`; otherwise the full record is
assembled in one pass over the (deduplicated) token set. -/
def generate_statistics (cfg : PasswordConfig) (passwords : List (List Char)) :
    Option StatsRecord :=
  let pws := passwords.dedup
  if pws = [] then none
  else
    let total := pws.length
    let lengths := pws.map List.length
    let weak := (pws.filter (fun pw =>
      decide (calculate_password_strength cfg pw = Strength.weak))).length
    let medium := (pws.filter (fun pw =>
      decide (calculate_password_strength cfg pw = Strength.medium))).length
    let strong := (pws.filter (fun pw =>
      decide (calculate_password_strength cfg pw = Strength.strong))).length
    some
      { total_passwords := total
        average_length := (lengths.sum : ℚ) / (total : ℚ)
        min_length := lengths.foldl min (lengths.headD 0)
        max_length := lengths.foldl max 0
        weak_count := weak
        medium_count := medium
        strong_count := strong
        weak_percentage := (weak : ℚ) / (total : ℚ) * 100
        medium_percentage := (medium : ℚ) / (total : ℚ) * 100
        strong_percentage := (strong : ℚ) / (total : ℚ) * 100
        upper_count := (pws.filter (fun pw => pw.any Char.isUpper)).length
        lower_count := (pws.filter (fun pw => pw.any Char.isLower)).length
        digit_count := (pws.filter (fun pw => pw.any Char.isDigit)).length
        special_count := (pws.filter (fun pw =>
          pw.any (fun c => c ∈ cfg.special_chars))).length }

/-- Claim C6 counterexample: on the empty token set the Statistics
Aggregator returns the empty dict (no fields at all), not a record
containing `total=0`. -/
theorem claim_C6_counterexample :
    generate_statistics defaultConfig [] = none := by rfl

/-- Claim C6 amended: on the empty token set the Statistics Aggregator
returns the empty record `\x7b\x7d` — which carries no `total` field rather
than `total=0` — and no division by zero occurs (the function is total, and
the divisions are only reached when the token set is non-empty). -/
theorem claim_C6_amended_thm :
    ∀ cfg : PasswordConfig, generate_statistics cfg [] = none := by
  intro cfg
  rfl

lemma foldl_leet_map (ps : List (Char × Char)) (l : List Char) :
    ps.foldl (fun acc p => acc.map (fun c => leetCharStep c p)) l =
      l.map (fun c => ps.foldl leetCharStep c) := by
  induction ps generalizing l with
  | nil => simp
  | cons p ps ih =>
      simp only [List.foldl_cons, ih, List.map_map]
      rfl

/-- The per-character action of the default leet table. -/
def leetFix (c : Char) : Char := defaultLeet.foldl leetCharStep c

lemma make_leet_default_eq_map (w : List Char) :
    make_leet defaultLeet w = w.map (fun c => leetFix (pyToLower c)) := by
  simp only [make_leet, pyLower, foldl_leet_map, List.map_map,
    Function.comp_def, leetFix]

lemma toNat_ofNat_valid (n : Nat) (h : n.isValidChar) :
    (Char.ofNat n).toNat = n := by
  rw [Char.ofNat, dif_pos h]
  rfl

lemma pyToLower_of_upper {c : Char} (h : 65 ≤ c.toNat ∧ c.toNat ≤ 90) :
    pyToLower c = Char.ofNat (c.toNat + 32) := if_pos h

lemma pyToLower_of_not_upper {c : Char} (h : ¬(65 ≤ c.toNat ∧ c.toNat ≤ 90)) :
    pyToLower c = c := if_neg h

lemma pyToLower_idem (c : Char) :
    pyToLower (pyToLower c) = pyToLower c := by
  by_cases h : 65 ≤ c.toNat ∧ c.toNat ≤ 90
  · rw [pyToLower_of_upper h]
    apply pyToLower_of_not_upper
    rw [toNat_ofNat_valid _ (Or.inl (by omega))]
    omega
  · rw [pyToLower_of_not_upper h]
    exact pyToLower_of_not_upper h

lemma leetFix_of_not_key (d : Char)
    (ha : d ≠ 'a') (he : d ≠ 'e') (hi : d ≠ 'i') (ho : d ≠ 'o')
    (hs : d ≠ 's') (ht : d ≠ 't') (hg : d ≠ 'g') (hb : d ≠ 'b') :
    leetFix d = d := by
  simp [leetFix, defaultLeet, leetCharStep, ha, he, hi, ho, hs, ht, hg, hb]

lemma leetFix_lower_idem (c : Char) :
    leetFix (pyToLower (leetFix (pyToLower c))) = leetFix (pyToLower c) := by
  by_cases ha : pyToLower c = 'a'
  · rw [ha]; decide
  by_cases he : pyToLower c = 'e'
  · rw [he]; decide
  by_cases hi : pyToLower c = 'i'
  · rw [hi]; decide
  by_cases ho : pyToLower c = 'o'
  · rw [ho]; decide
  by_cases hs : pyToLower c = 's'
  · rw [hs]; decide
  by_cases ht : pyToLower c = 't'
  · rw [ht]; decide
  by_cases hg : pyToLower c = 'g'
  · rw [hg]; decide
  by_cases hb : pyToLower c = 'b'
  · rw [hb]; decide
  rw [leetFix_of_not_key _ ha he hi ho hs ht hg hb, pyToLower_idem,
    leetFix_of_not_key _ ha he hi ho hs ht hg hb]

/-- Claim C10: the Leet Transformer with the default map is idempotent —
lower-casing is idempotent and every replacement character of the default
map (a digit) lies outside the key set of the map, so a second pass changes
nothing. -/
theorem claim_C10_leet_idempotent (w : List Char) :
    make_leet defaultLeet (make_leet defaultLeet w) = make_leet defaultLeet w := by
  rw [make_leet_default_eq_map, make_leet_default_eq_map]
  simp only [List.map_map, Function.comp_def]
  refine List.map_congr_left ?_
  intro a _
  exact leetFix_lower_idem a
